import Mathlib

/-!
Formal model of the SM-2 spaced-repetition scheduler and its storage layer,
translated from the application source.  JavaScript numbers are modelled as
rationals, timestamps as integer epoch milliseconds, and calendar-date strings
(which compare lexicographically exactly as they compare chronologically) as
integer day numbers.
-/

namespace SpacedRep

/-- The four review difficulty grades. -/
inductive Difficulty where
  | again
  | hard
  | good
  | easy
  deriving DecidableEq, Repr

/-- A flashcard record.  Field names follow the source `Flashcard` type.
Timestamps (`createdAt`, `updatedAt`, `nextReviewDate`) are epoch
milliseconds.  `averageResponseTime` is an optional field in the source, so it
is an `Option` here. -/
structure Flashcard where
  id : String
  front : String
  back : String
  category : String
  tags : List String
  createdAt : Int
  updatedAt : Int
  easeFactor : ℚ
  interval : ℚ
  repetitions : ℚ
  nextReviewDate : Int
  totalReviews : ℚ
  correctReviews : ℚ
  streak : ℚ
  averageResponseTime : Option ℚ
  deriving DecidableEq, Repr

/-- Result of `calculateNext`, mirroring the source `AlgorithmResult`.
All assignments to `interval` in the source produce integers (literals or
`Math.round` results), so the interval is an `Int` here; it is cast back to a
rational when stored on the card. -/
structure AlgorithmResult where
  easeFactor : ℚ
  interval : Int
  repetitions : ℚ
  nextReviewDate : Int
  deriving DecidableEq, Repr

/-- One minute in epoch milliseconds. -/
def msPerMinute : Int := 60000

/-- One day in epoch milliseconds. -/
def msPerDay : Int := 86400000

/-- JavaScript `Math.round`: round half toward positive infinity. -/
def jroundZ (x : ℚ) : Int := ⌊x + 1/2⌋

/-- Translation of `SpacedRepetitionAlgorithm.calculateNext`.  `now` stands
for the `new Date()` taken at the start of the function.  The `again` branch
re-queues after one minute; every other branch schedules `interval` days
ahead. -/
def calculateNext (card : Flashcard) (difficulty : Difficulty) (now : Int) :
    AlgorithmResult :=
  match difficulty with
  | .again =>
      { easeFactor := card.easeFactor
        interval := 0
        repetitions := 0
        nextReviewDate := now + msPerMinute }
  | .hard =>
      let ef := max (1.3 : ℚ) (card.easeFactor - 0.15)
      if card.repetitions = 0 then
        { easeFactor := ef, interval := 1, repetitions := 1
          nextReviewDate := now + 1 * msPerDay }
      else if card.repetitions = 1 then
        { easeFactor := ef, interval := 2, repetitions := 2
          nextReviewDate := now + 2 * msPerDay }
      else
        let itv := max 1 (jroundZ (card.interval * ef * 0.8))
        { easeFactor := ef, interval := itv, repetitions := card.repetitions + 1
          nextReviewDate := now + itv * msPerDay }
  | .good =>
      if card.repetitions = 0 then
        { easeFactor := card.easeFactor, interval := 1, repetitions := 1
          nextReviewDate := now + 1 * msPerDay }
      else if card.repetitions = 1 then
        { easeFactor := card.easeFactor, interval := 6, repetitions := 2
          nextReviewDate := now + 6 * msPerDay }
      else
        let itv := jroundZ (card.interval * card.easeFactor)
        { easeFactor := card.easeFactor, interval := itv
          repetitions := card.repetitions + 1
          nextReviewDate := now + itv * msPerDay }
  | .easy =>
      let ef := min (2.5 : ℚ) (card.easeFactor + 0.1)
      if card.repetitions = 0 then
        { easeFactor := ef, interval := 4, repetitions := 1
          nextReviewDate := now + 4 * msPerDay }
      else if card.repetitions = 1 then
        { easeFactor := ef, interval := 8, repetitions := 2
          nextReviewDate := now + 8 * msPerDay }
      else
        let itv := jroundZ (card.interval * ef * 1.3)
        { easeFactor := ef, interval := itv, repetitions := card.repetitions + 1
          nextReviewDate := now + itv * msPerDay }

/-- Translation of `SpacedRepetitionAlgorithm.processReview` (the returned
updated card; the `CardStorage.update` and `updateDailyStats` side effects are
modelled separately).  The conditional on `card.averageResponseTime` follows
JavaScript truthiness: `undefined` and `0` both take the `responseTime`
branch. -/
def processReview (card : Flashcard) (difficulty : Difficulty)
    (responseTime : ℚ) (now : Int) : Flashcard :=
  let result := calculateNext card difficulty now
  let totalReviews := card.totalReviews + 1
  let correctReviews :=
    if difficulty ≠ .again then card.correctReviews + 1 else card.correctReviews
  let streak := if difficulty ≠ .again then card.streak + 1 else 0
  let averageResponseTime :=
    match card.averageResponseTime with
    | some a =>
        if a ≠ 0 then
          some ((a * card.totalReviews + responseTime) / totalReviews)
        else some responseTime
    | none => some responseTime
  { card with
      easeFactor := result.easeFactor
      interval := (result.interval : ℚ)
      repetitions := result.repetitions
      nextReviewDate := result.nextReviewDate
      totalReviews := totalReviews
      correctReviews := correctReviews
      streak := streak
      averageResponseTime := averageResponseTime
      updatedAt := now }

/-- The caller-supplied record for `CardStorage.add`: every `Flashcard` field
except `id`, `createdAt` and `updatedAt` (the source type is
`Omit<Flashcard, 'id' | 'createdAt' | 'updatedAt'>`). -/
structure NewCardInput where
  front : String
  back : String
  category : String
  tags : List String
  easeFactor : ℚ
  interval : ℚ
  repetitions : ℚ
  nextReviewDate : Int
  totalReviews : ℚ
  correctReviews : ℚ
  streak : ℚ
  averageResponseTime : Option ℚ
  deriving DecidableEq, Repr

/-- Translation of `CardStorage.add`.  The spread of the input record is
followed by explicit assignments, so those fields override whatever the
caller supplied; `newId` models `generateId()` and `now` the two
`new Date()` calls.  Returns the updated collection and the new card. -/
def cardStorageAdd (cards : List Flashcard) (input : NewCardInput)
    (newId : String) (now : Int) : List Flashcard × Flashcard :=
  let newCard : Flashcard :=
    { id := newId
      front := input.front
      back := input.back
      category := input.category
      tags := input.tags
      createdAt := now
      updatedAt := now
      easeFactor := 2.5
      interval := 1
      repetitions := 0
      nextReviewDate := now
      totalReviews := 0
      correctReviews := 0
      streak := 0
      averageResponseTime := input.averageResponseTime }
  (cards ++ [newCard], newCard)

/-- The interleaving loop of `getStudyQueue`: for each index `i` below
`max(dueCards.length, newCards.length)` it appends `dueCards[i]` if present,
then `dueCards[i+1]` if present, then `newCards[i]` if present. -/
def interleave (dueCards newCards : List α) : List α :=
  ((List.range (max dueCards.length newCards.length)).map (fun i =>
      (dueCards[i]?).toList ++ (dueCards[i+1]?).toList
        ++ (newCards[i]?).toList)).flatten

/-- Translation of `getStudyQueue`, parameterised by the already-shuffled due
and new lists (`getDueCards` / `getNewCards` apply a random shuffle that is
abstracted by quantifying over the resulting order).  A cap of `0` is falsy
in JavaScript, in which case `slice` is skipped. -/
def getStudyQueue (shuffledDue shuffledNew : List α)
    (maxNewCards maxReviews : Nat) : List α :=
  let dueCards := if maxReviews = 0 then shuffledDue else shuffledDue.take maxReviews
  let newCards := if maxNewCards = 0 then shuffledNew else shuffledNew.take maxNewCards
  interleave dueCards newCards

/-- A per-day statistics record; `date` is a calendar-day number standing for
the source date string (ISO date strings compare lexicographically exactly as
day numbers compare). -/
structure DailyStats where
  date : Int
  cardsStudied : ℚ
  correctAnswers : ℚ
  studyTime : ℚ
  newCards : ℚ
  deriving DecidableEq, Repr

/-- Lifetime statistics, as in the source `UserProgress.lifetimeStats`. -/
structure LifetimeStats where
  totalReviews : ℚ
  correctReviews : ℚ
  accuracy : ℚ
  longestStreak : ℚ
  totalCardsCreated : ℚ
  deriving DecidableEq, Repr

/-- The source `UserProgress` record. -/
structure UserProgress where
  totalCards : ℚ
  cardsLearned : ℚ
  cardsDue : ℚ
  streakDays : ℚ
  totalStudyTime : ℚ
  dailyStats : List DailyStats
  lifetimeStats : LifetimeStats
  deriving DecidableEq, Repr

/-- The `defaultProgress` value of `ProgressStorage.get`. -/
def defaultProgress : UserProgress :=
  { totalCards := 0
    cardsLearned := 0
    cardsDue := 0
    streakDays := 0
    totalStudyTime := 0
    dailyStats := []
    lifetimeStats :=
      { totalReviews := 0
        correctReviews := 0
        accuracy := 0
        longestStreak := 0
        totalCardsCreated := 0 } }

/-- The daily part of `updateDailyStats`: mutate the entry found for `today`,
or push a fresh entry at the end of the list. -/
def updateDailyEntry (today : Int) (correct : Bool) (responseTime : ℚ) :
    List DailyStats → List DailyStats
  | [] =>
      [{ date := today
         cardsStudied := 1
         correctAnswers := if correct then 1 else 0
         studyTime := responseTime
         newCards := 0 }]
  | s :: rest =>
      if s.date = today then
        { s with
            cardsStudied := s.cardsStudied + 1
            correctAnswers :=
              if correct then s.correctAnswers + 1 else s.correctAnswers
            studyTime := s.studyTime + responseTime } :: rest
      else s :: updateDailyEntry today correct responseTime rest

/-- The lifetime part of `updateDailyStats`: bump the totals, then recompute
accuracy as a percentage (or 0 when there are no reviews). -/
def updateLifetime (ls : LifetimeStats) (correct : Bool) : LifetimeStats :=
  let totalReviews := ls.totalReviews + 1
  let correctReviews :=
    if correct then ls.correctReviews + 1 else ls.correctReviews
  { ls with
      totalReviews := totalReviews
      correctReviews := correctReviews
      accuracy :=
        if totalReviews > 0 then correctReviews / totalReviews * 100 else 0 }

/-- Translation of `SpacedRepetitionAlgorithm.updateDailyStats` acting on a
`UserProgress` value (`correct` is `difficulty !== Difficulty.AGAIN` at the
call site; `today` models `getTodayString()`). -/
def updateDailyStats (progress : UserProgress) (correct : Bool)
    (responseTime : ℚ) (today : Int) : UserProgress :=
  { progress with
      dailyStats := updateDailyEntry today correct responseTime progress.dailyStats
      lifetimeStats := updateLifetime progress.lifetimeStats correct }

/-- A sequence of reviews recorded against the default (fresh) progress
state; each review is a pair of its correctness flag and response time. -/
def recordReviews (reviews : List (Bool × ℚ)) (today : Int) : UserProgress :=
  reviews.foldl (fun p r => updateDailyStats p r.1 r.2 today) defaultProgress

/-- Descending-date comparison used by `calculateStudyStreak` when sorting
(`(a, b) => b.date.localeCompare(a.date)`). -/
def dateDesc (a b : DailyStats) : Prop := b.date ≤ a.date

instance : DecidableRel dateDesc := fun a b =>
  inferInstanceAs (Decidable (b.date ≤ a.date))

instance : IsTotal DailyStats dateDesc := ⟨fun a b => le_total b.date a.date⟩

instance : IsTrans DailyStats dateDesc :=
  ⟨fun _ _ _ hab hbc => le_trans hbc hab⟩

/-- The walking loop of `calculateStudyStreak`: consume the (sorted) daily
stats while each entry matches the expected date and has a positive
`cardsStudied`, stepping the expected date back one day each time. -/
def streakWalk : List DailyStats → Int → Nat
  | [], _ => 0
  | s :: rest, d =>
      if s.date = d ∧ s.cardsStudied > 0 then streakWalk rest (d - 1) + 1 else 0

/-- Translation of `StudyUtils.calculateStudyStreak`: sort the daily stats by
date descending and walk from today backwards. -/
def calculateStudyStreak (dailyStats : List DailyStats) (today : Int) : Nat :=
  streakWalk (List.insertionSort dateDesc dailyStats) today

/-- A day counts as studied when some daily stat carries that exact date with
a positive `cardsStudied`. -/
def hasStudyOn (stats : List DailyStats) (d : Int) : Prop :=
  ∃ s ∈ stats, s.date = d ∧ 0 < s.cardsStudied

instance (stats : List DailyStats) (d : Int) : Decidable (hasStudyOn stats d) :=
  inferInstanceAs (Decidable (∃ s ∈ stats, _ ∧ _))

/-- Modelled from the spec: the running-mean formula the specification gives
for `averageResponseTime` updates, with 0 substituted for an undefined
previous average. -/
def specRunningMean (prevAvg : Option ℚ) (prevCount newTime : ℚ) : ℚ :=
  (prevAvg.getD 0 * prevCount + newTime) / (prevCount + 1)

/-- A sample card used to instantiate universally quantified theorems. -/
def sampleCard : Flashcard :=
  { id := "card-1"
    front := "question"
    back := "answer"
    category := "general"
    tags := []
    createdAt := 0
    updatedAt := 0
    easeFactor := 2
    interval := 3
    repetitions := 2
    nextReviewDate := 0
    totalReviews := 2
    correctReviews := 1
    streak := 1
    averageResponseTime := some 4 }

/-- A card whose `averageResponseTime` is undefined while `totalReviews` is
already positive (for instance because its only recorded review had response
time 0, or because it was imported in this shape). -/
def undefinedAvgCard : Flashcard :=
  { sampleCard with totalReviews := 1, averageResponseTime := none }

/-!
JSON model for the storage layer.  `JSON.stringify` followed by `JSON.parse`
is the identity on JSON documents, so serialization is modelled at the level
of JSON values; an abstract parse function `String → Option Json` stands for
`JSON.parse` where a real string is consumed.  In-memory values (`JVal`) add
a `date` constructor for JavaScript `Date` objects, carrying the canonical
ISO serialization the object would stringify to.  The parameter
`p : String → Option String` models the date detection of
`Storage.reviveDates`: `p s = some c` when `s` matches the ISO-prefix regex
and `new Date(s)` is valid, `c` being `new Date(s).toISOString()`.  The one
fact used about it is that canonical ISO strings are fixed points of this
canonicalization, which is the `hp` hypothesis below.
-/

mutual
inductive Json where
  | null
  | bool (b : Bool)
  | num (q : ℚ)
  | str (s : String)
  | arr (items : JsonArr)
  | obj (fields : JsonObj)
inductive JsonArr where
  | nil
  | cons (hd : Json) (tl : JsonArr)
inductive JsonObj where
  | nil
  | cons (key : String) (val : Json) (tl : JsonObj)
end

mutual
inductive JVal where
  | null
  | bool (b : Bool)
  | num (q : ℚ)
  | str (s : String)
  | date (iso : String)
  | arr (items : JValArr)
  | obj (fields : JValObj)
inductive JValArr where
  | nil
  | cons (hd : JVal) (tl : JValArr)
inductive JValObj where
  | nil
  | cons (key : String) (val : JVal) (tl : JValObj)
end

mutual
/-- Translation of `Storage.reviveDates`: strings that look like dates (and
parse to a valid `Date`) become date values; arrays and objects are rebuilt
recursively; everything else is returned unchanged. -/
def reviveDates (p : String → Option String) : Json → JVal
  | .null => .null
  | .bool b => .bool b
  | .num q => .num q
  | .str s =>
      match p s with
      | some c => .date c
      | none => .str s
  | .arr xs => .arr (reviveDatesArr p xs)
  | .obj fs => .obj (reviveDatesObj p fs)
def reviveDatesArr (p : String → Option String) : JsonArr → JValArr
  | .nil => .nil
  | .cons x xs => .cons (reviveDates p x) (reviveDatesArr p xs)
def reviveDatesObj (p : String → Option String) : JsonObj → JValObj
  | .nil => .nil
  | .cons k v fs => .cons k (reviveDates p v) (reviveDatesObj p fs)
end

mutual
/-- The `JSON.stringify` view of an in-memory value: `Date` objects serialize
to their canonical ISO string, everything else structurally. -/
def jvalToJson : JVal → Json
  | .null => .null
  | .bool b => .bool b
  | .num q => .num q
  | .str s => .str s
  | .date c => .str c
  | .arr xs => .arr (jvalArrToJson xs)
  | .obj fs => .obj (jvalObjToJson fs)
def jvalArrToJson : JValArr → JsonArr
  | .nil => .nil
  | .cons x xs => .cons (jvalToJson x) (jvalArrToJson xs)
def jvalObjToJson : JValObj → JsonObj
  | .nil => .nil
  | .cons k v fs => .cons k (jvalToJson v) (jvalObjToJson fs)
end

/-- JavaScript truthiness of an in-memory value (rationals have no NaN, so
numbers are falsy exactly at 0). -/
def JVal.truthy : JVal → Bool
  | .null => false
  | .bool b => b
  | .num q => decide (q ≠ 0)
  | .str s => decide (s ≠ "")
  | .date _ => true
  | .arr _ => true
  | .obj _ => true

/-- JavaScript truthiness of a parsed JSON value. -/
def Json.truthy : Json → Bool
  | .null => false
  | .bool b => b
  | .num q => decide (q ≠ 0)
  | .str s => decide (s ≠ "")
  | .arr _ => true
  | .obj _ => true

/-- First field with the given key, if any. -/
def JsonObj.findField (key : String) : JsonObj → Option Json
  | .nil => none
  | .cons k v fs => if k = key then some v else JsonObj.findField key fs

/-- JavaScript property access `data.key` on a parsed JSON document:
`none` models `undefined`. -/
def Json.getField (j : Json) (key : String) : Option Json :=
  match j with
  | .obj fs => fs.findField key
  | _ => none

/-- The localStorage contents relevant to backup, one parsed JSON document
per storage key (`none` when the key is absent or unreadable, in which case
`Storage.get` returns `null`). -/
structure StoreState where
  cards : Option Json
  progress : Option Json
  sessions : Option Json
  categories : Option Json
  settings : Option Json

/-- One `if (data.key) Storage.save(data.key)` step of `importData`: replace
the stored collection when the field is present and truthy, keep it
otherwise. -/
def applyKey (cur : Option Json) (v : Option Json) : Option Json :=
  match v with
  | some jv => if jv.truthy then some jv else cur
  | none => cur

/-- Translation of `BackupStorage.importData`, with `JSON.parse` abstracted
as `parseJson` (returning `none` exactly when parsing throws, in which case
the catch block returns `false` before any save executes). -/
def importData (parseJson : String → Option Json) (input : String)
    (st : StoreState) : Bool × StoreState :=
  match parseJson input with
  | none => (false, st)
  | some data =>
      (true,
        { cards := applyKey st.cards (data.getField ("cards"))
          progress := applyKey st.progress (data.getField ("progress"))
          sessions := applyKey st.sessions (data.getField ("sessions"))
          categories := applyKey st.categories (data.getField ("categories"))
          settings := applyKey st.settings (data.getField ("settings")) })

/-- Reading a list-valued collection: `Storage.get(key) || []` with date
revival. -/
def readCollection (p : String → Option String) (stored : Option Json) : JVal :=
  match stored with
  | none => .arr .nil
  | some j => if (reviveDates p j).truthy then reviveDates p j else .arr .nil

/-- The card collection as `CardStorage.getAll` reads it back. -/
def readCards (p : String → Option String) (st : StoreState) : JVal :=
  readCollection p st.cards

/-- The `defaultProgress` object of `ProgressStorage.get` as a JSON-level
value. -/
def defaultProgressJVal : JVal :=
  .obj (.cons ("totalCards") (.num 0)
    (.cons ("cardsLearned") (.num 0)
    (.cons ("cardsDue") (.num 0)
    (.cons ("streakDays") (.num 0)
    (.cons ("totalStudyTime") (.num 0)
    (.cons ("dailyStats") (.arr .nil)
    (.cons ("lifetimeStats")
      (.obj (.cons ("totalReviews") (.num 0)
        (.cons ("correctReviews") (.num 0)
        (.cons ("accuracy") (.num 0)
        (.cons ("longestStreak") (.num 0)
        (.cons ("totalCardsCreated") (.num 0) .nil))))))
      .nil)))))))

/-- The `defaultSettings` object of `SettingsStorage.get` as a JSON-level
value. -/
def defaultSettingsJVal : JVal :=
  .obj (.cons ("dailyGoal") (.num 20)
    (.cons ("maxNewCards") (.num 10)
    (.cons ("maxReviews") (.num 50)
    (.cons ("showTimer") (.bool true)
    (.cons ("autoAdvance") (.bool false)
    (.cons ("shuffleCards") (.bool true) .nil))))))

/-- `ProgressStorage.get`: stored value or the default progress record. -/
def readProgress (p : String → Option String) (st : StoreState) : JVal :=
  match st.progress with
  | none => defaultProgressJVal
  | some j =>
      if (reviveDates p j).truthy then reviveDates p j else defaultProgressJVal

/-- `SettingsStorage.get`: stored value or the default settings record. -/
def readSettings (p : String → Option String) (st : StoreState) : JVal :=
  match st.settings with
  | none => defaultSettingsJVal
  | some j =>
      if (reviveDates p j).truthy then reviveDates p j else defaultSettingsJVal

/-- Translation of `BackupStorage.exportData`: the serialized export
document, as a JSON value. -/
def exportData (p : String → Option String) (st : StoreState)
    (exportDate : String) : Json :=
  .obj (.cons ("cards") (jvalToJson (readCards p st))
    (.cons ("progress") (jvalToJson (readProgress p st))
    (.cons ("sessions") (jvalToJson (readCollection p st.sessions))
    (.cons ("categories") (jvalToJson (readCollection p st.categories))
    (.cons ("settings") (jvalToJson (readSettings p st))
    (.cons ("exportDate") (.str exportDate) .nil))))))

/-- A sample stored state: one card with a date-shaped field, no other
collections. -/
def sampleState : StoreState :=
  { cards := some (.arr (.cons
      (.obj (.cons ("id") (.str ("card-1"))
        (.cons ("nextReviewDate") (.str ("2024-01-01T00:00:00.000Z"))
          .nil)))
      .nil))
    progress := none
    sessions := none
    categories := none
    settings := none }

/- ------------------------------------------------------------------ -/
/- Theorems                                                           -/
/- ------------------------------------------------------------------ -/

/-- The ease factor produced by `processReview` is the one produced by
`calculateNext`. -/
theorem processReview_easeFactor (card : Flashcard) (difficulty : Difficulty)
    (responseTime : ℚ) (now : Int) :
    (processReview card difficulty responseTime now).easeFactor =
      (calculateNext card difficulty now).easeFactor := rfl

/-- C2: for every card whose easeFactor lies in the interval from 1.3 to 2.5
and every difficulty grade and response time, the card returned by
`processReview` again has easeFactor in that interval. -/
theorem processReview_easeFactor_bounds (card : Flashcard)
    (difficulty : Difficulty) (responseTime : ℚ) (now : Int)
    (hlo : (1.3 : ℚ) ≤ card.easeFactor) (hhi : card.easeFactor ≤ 2.5) :
    (1.3 : ℚ) ≤ (processReview card difficulty responseTime now).easeFactor ∧
      (processReview card difficulty responseTime now).easeFactor ≤ 2.5 := by
  rw [processReview_easeFactor]
  cases difficulty <;> simp only [calculateNext] <;> try split_ifs
  all_goals refine ⟨?_, ?_⟩
  all_goals first
    | exact hlo
    | exact hhi
    | exact le_max_left _ _
    | exact max_le (by norm_num) (by linarith)
    | exact le_min (by norm_num) (by linarith)
    | exact min_le_left _ _

/-- Witness for C2 at a concrete card and grade. -/
theorem processReview_easeFactor_bounds_witness :
    (1.3 : ℚ) ≤ (processReview sampleCard Difficulty.hard 5 0).easeFactor ∧
      (processReview sampleCard Difficulty.hard 5 0).easeFactor ≤ 2.5 :=
  processReview_easeFactor_bounds sampleCard Difficulty.hard 5 0
    (by norm_num [sampleCard]) (by norm_num [sampleCard])

/-- C3: reviewing any card with difficulty `again` yields repetitions 0,
interval 0, streak 0, an unchanged ease factor, and a next review exactly one
minute after `now`, regardless of the prior interval and repetitions. -/
theorem processReview_again_resets (card : Flashcard) (responseTime : ℚ)
    (now : Int) :
    (processReview card Difficulty.again responseTime now).repetitions = 0 ∧
      (processReview card Difficulty.again responseTime now).interval = 0 ∧
      (processReview card Difficulty.again responseTime now).streak = 0 ∧
      (processReview card Difficulty.again responseTime now).easeFactor =
        card.easeFactor ∧
      (processReview card Difficulty.again responseTime now).nextReviewDate =
        now + msPerMinute :=
  ⟨rfl, rfl, rfl, rfl, rfl⟩

/-- C4 counterexample: on a card whose `averageResponseTime` is undefined
while `totalReviews` is 1, the code stores the raw response time (10), while
the running-mean formula of the claim yields 5. -/
theorem averageResponseTime_not_spec_mean :
    (processReview undefinedAvgCard Difficulty.good 10 0).averageResponseTime
        = some 10 ∧
      specRunningMean undefinedAvgCard.averageResponseTime
        undefinedAvgCard.totalReviews 10 = 5 ∧
      (processReview undefinedAvgCard Difficulty.good 10 0).averageResponseTime
        ≠ some (specRunningMean undefinedAvgCard.averageResponseTime
            undefinedAvgCard.totalReviews 10) := by
  refine ⟨rfl, by norm_num [specRunningMean, undefinedAvgCard, sampleCard], ?_⟩
  intro h
  rw [show (processReview undefinedAvgCard Difficulty.good 10 0).averageResponseTime
      = some 10 from rfl] at h
  norm_num [specRunningMean, undefinedAvgCard, sampleCard] at h

/-- C4 amended: `processReview` sets `averageResponseTime` to the running mean
`(prevAvg * prevCount + newTime) / (prevCount + 1)` whenever the previous
average is defined and nonzero; when the previous average is undefined or
zero it stores the raw response time instead (JavaScript truthiness drops the
previous count in that case). -/
theorem processReview_averageResponseTime (card : Flashcard)
    (difficulty : Difficulty) (responseTime : ℚ) (now : Int) :
    (∀ a : ℚ, card.averageResponseTime = some a → a ≠ 0 →
        (processReview card difficulty responseTime now).averageResponseTime =
          some ((a * card.totalReviews + responseTime) /
            (card.totalReviews + 1))) ∧
      (card.averageResponseTime = none ∨ card.averageResponseTime = some 0 →
        (processReview card difficulty responseTime now).averageResponseTime =
          some responseTime) := by
  constructor
  · intro a ha hne
    simp only [processReview, ha, hne, if_true, ite_not]
    simp [hne]
  · rintro (h | h) <;> simp [processReview, h]

/-- Witness for the amended C4 at a concrete card with a defined, nonzero
previous average (4 over 2 prior reviews, new time 10, giving 6). -/
theorem processReview_averageResponseTime_witness :
    (processReview sampleCard Difficulty.good 10 0).averageResponseTime =
      some 6 := by
  have h := (processReview_averageResponseTime sampleCard Difficulty.good 10 0).1
    4 rfl (by norm_num)
  rw [h]
  norm_num [sampleCard]

/-- C1: on five due cards and one new card with both caps at 10, the study
queue emits `due[i]` and `due[i+1]` at every index while advancing the index
by only one, so each due card after the first appears twice; the sequence the
specification expects (each due card once, two due per new) is not produced. -/
theorem studyQueue_duplicates_due_cards :
    getStudyQueue [0, 1, 2, 3, 4] [9] 10 10 =
        [0, 1, 9, 1, 2, 2, 3, 3, 4, 4] ∧
      (getStudyQueue [0, 1, 2, 3, 4] [9] 10 10).count 1 = 2 ∧
      getStudyQueue [0, 1, 2, 3, 4] [9] 10 10 ≠ [0, 1, 9, 2, 3, 4] := by
  refine ⟨by decide, by decide, by decide⟩

/-- C9: `cardStorageAdd` returns (and appends) a card whose scheduling and
statistics fields are the fixed defaults, overriding whatever the caller
supplied in the input record. -/
theorem cardStorageAdd_defaults (cards : List Flashcard) (input : NewCardInput)
    (newId : String) (now : Int) :
    (cardStorageAdd cards input newId now).2.easeFactor = 2.5 ∧
      (cardStorageAdd cards input newId now).2.interval = 1 ∧
      (cardStorageAdd cards input newId now).2.repetitions = 0 ∧
      (cardStorageAdd cards input newId now).2.totalReviews = 0 ∧
      (cardStorageAdd cards input newId now).2.correctReviews = 0 ∧
      (cardStorageAdd cards input newId now).2.streak = 0 ∧
      (cardStorageAdd cards input newId now).2.nextReviewDate = now ∧
      (cardStorageAdd cards input newId now).1 =
        cards ++ [(cardStorageAdd cards input newId now).2] :=
  ⟨rfl, rfl, rfl, rfl, rfl, rfl, rfl, rfl⟩

/-- C10: `processReview` preserves the card's identity and content fields:
id, front, back, category, tags and createdAt are returned unchanged. -/
theorem processReview_preserves_identity_fields (card : Flashcard)
    (difficulty : Difficulty) (responseTime : ℚ) (now : Int) :
    (processReview card difficulty responseTime now).id = card.id ∧
      (processReview card difficulty responseTime now).front = card.front ∧
      (processReview card difficulty responseTime now).back = card.back ∧
      (processReview card difficulty responseTime now).category =
        card.category ∧
      (processReview card difficulty responseTime now).tags = card.tags ∧
      (processReview card difficulty responseTime now).createdAt =
        card.createdAt :=
  ⟨rfl, rfl, rfl, rfl, rfl, rfl⟩

/-- Auxiliary: on a list whose dates are strictly descending and all bounded
by `d`, the streak walk counts exactly the consecutive studied days starting
at `d`, stopping at the first gap. -/
theorem streakWalk_spec (l : List DailyStats) (d : Int)
    (hsorted : l.Pairwise (fun a b => b.date < a.date))
    (hle : ∀ s ∈ l, s.date ≤ d) :
    (∀ j : ℕ, j < streakWalk l d →
        ∃ s ∈ l, s.date = d - j ∧ 0 < s.cardsStudied) ∧
      ¬ ∃ s ∈ l, s.date = d - (streakWalk l d : ℤ) ∧ 0 < s.cardsStudied := by
  induction l generalizing d with
  | nil => simp [streakWalk]
  | cons s rest ih =>
    rcases List.pairwise_cons.mp hsorted with ⟨hhd, hrest⟩
    by_cases hc : s.date = d ∧ s.cardsStudied > 0
    · have hle' : ∀ t ∈ rest, t.date ≤ d - 1 := by
        intro t ht
        have hlt := hhd t ht
        omega
      obtain ⟨ih1, ih2⟩ := ih (d - 1) hrest hle'
      have hwalk : streakWalk (s :: rest) d = streakWalk rest (d - 1) + 1 := by
        simp [streakWalk, hc]
      constructor
      · intro j hj
        rw [hwalk] at hj
        cases j with
        | zero =>
          refine ⟨s, List.mem_cons_self _ _, by simpa using hc.1, hc.2⟩
        | succ j' =>
          have hj' : j' < streakWalk rest (d - 1) := by omega
          obtain ⟨t, htmem, htdate, htpos⟩ := ih1 j' hj'
          refine ⟨t, List.mem_cons_of_mem _ htmem, ?_, htpos⟩
          push_cast at htdate ⊢
          omega
      · rw [hwalk]
        rintro ⟨t, htmem, htdate, htpos⟩
        rcases List.mem_cons.mp htmem with rfl | htmem'
        · have hsd := hc.1
          push_cast at htdate
          omega
        · refine ih2 ⟨t, htmem', ?_, htpos⟩
          push_cast at htdate ⊢
          omega
    · have hwalk : streakWalk (s :: rest) d = 0 := by
        simp [streakWalk, hc]
      constructor
      · intro j hj
        rw [hwalk] at hj
        omega
      · rw [hwalk]
        rintro ⟨t, htmem, htdate, htpos⟩
        push_cast at htdate
        rcases List.mem_cons.mp htmem with rfl | htmem'
        · exact hc ⟨by omega, htpos⟩
        · have h1 := hhd t htmem'
          have h2 := hle s (List.mem_cons_self _ _)
          omega

/-- C6: for every well-formed history of daily statistics (one entry per
calendar date, no future dates — the data-model invariants under which these
records are created), the streak returned by `calculateStudyStreak` counts
exactly the consecutive calendar days, starting from today and stepping
backwards, on which a daily stat with positive `cardsStudied` exists, and
stops at the first gap. -/
theorem studyStreak_counts_consecutive_days (stats : List DailyStats)
    (today : Int) (hnodup : (stats.map (fun s => s.date)).Nodup)
    (hpast : ∀ s ∈ stats, s.date ≤ today) :
    (∀ j : ℕ, j < calculateStudyStreak stats today →
        hasStudyOn stats (today - j)) ∧
      ¬ hasStudyOn stats (today - (calculateStudyStreak stats today : ℤ)) := by
  have hperm : List.Perm (List.insertionSort dateDesc stats) stats :=
    List.perm_insertionSort _ _
  have hsorted : List.Sorted dateDesc (List.insertionSort dateDesc stats) :=
    List.sorted_insertionSort dateDesc stats
  have hnodup' :
      ((List.insertionSort dateDesc stats).map (fun s => s.date)).Nodup :=
    ((hperm.map _).nodup_iff).mpr hnodup
  have hpairne :
      (List.insertionSort dateDesc stats).Pairwise
        (fun a b => a.date ≠ b.date) :=
    List.pairwise_map.mp hnodup'
  have hstrict :
      (List.insertionSort dateDesc stats).Pairwise
        (fun a b => b.date < a.date) :=
    (hsorted.and hpairne).imp fun h => lt_of_le_of_ne h.1 (Ne.symm h.2)
  have hle : ∀ s ∈ List.insertionSort dateDesc stats, s.date ≤ today :=
    fun s hs => hpast s (hperm.subset hs)
  obtain ⟨h1, h2⟩ := streakWalk_spec _ today hstrict hle
  constructor
  · intro j hj
    obtain ⟨t, htmem, ha, hb⟩ := h1 j hj
    exact ⟨t, hperm.subset htmem, ha, hb⟩
  · rintro ⟨t, htmem, ha, hb⟩
    exact h2 ⟨t, hperm.mem_iff.mpr htmem, ha, hb⟩

/-- Three studied days (entered out of order) ending today and a gap before
them. -/
def sampleStreakStats : List DailyStats :=
  [{ date := 98, cardsStudied := 1, correctAnswers := 1, studyTime := 1, newCards := 0 },
   { date := 100, cardsStudied := 2, correctAnswers := 1, studyTime := 5, newCards := 0 },
   { date := 99, cardsStudied := 1, correctAnswers := 0, studyTime := 2, newCards := 0 }]

/-- Witness for C6: on the three-day history the streak is 3, and day
`today - 3` is indeed unstudied. -/
theorem studyStreak_counts_consecutive_days_witness :
    calculateStudyStreak sampleStreakStats 100 = 3 ∧
      ¬ hasStudyOn sampleStreakStats
        (100 - (calculateStudyStreak sampleStreakStats 100 : ℤ)) :=
  ⟨by decide,
    (studyStreak_counts_consecutive_days sampleStreakStats 100
      (by decide) (by decide)).2⟩

/-- Auxiliary: effect of a review fold on the lifetime statistics, for an
arbitrary starting progress value. -/
theorem foldReviews_lifetime (reviews : List (Bool × ℚ)) (p : UserProgress)
    (today : Int) :
    (reviews.foldl (fun q r => updateDailyStats q r.1 r.2 today)
          p).lifetimeStats.totalReviews
        = p.lifetimeStats.totalReviews + reviews.length ∧
      (reviews.foldl (fun q r => updateDailyStats q r.1 r.2 today)
          p).lifetimeStats.correctReviews
        = p.lifetimeStats.correctReviews +
            reviews.countP (fun r => r.1) ∧
      (reviews = [] ∨
        (reviews.foldl (fun q r => updateDailyStats q r.1 r.2 today)
            p).lifetimeStats.accuracy =
          if (reviews.foldl (fun q r => updateDailyStats q r.1 r.2 today)
                p).lifetimeStats.totalReviews > 0 then
            (reviews.foldl (fun q r => updateDailyStats q r.1 r.2 today)
                p).lifetimeStats.correctReviews /
              (reviews.foldl (fun q r => updateDailyStats q r.1 r.2 today)
                  p).lifetimeStats.totalReviews * 100
          else 0) := by
  induction reviews generalizing p with
  | nil => exact ⟨by simp, by simp, Or.inl rfl⟩
  | cons r rs ih =>
    obtain ⟨ih1, ih2, ih3⟩ := ih (updateDailyStats p r.1 r.2 today)
    have hstep_total :
        (updateDailyStats p r.1 r.2 today).lifetimeStats.totalReviews =
          p.lifetimeStats.totalReviews + 1 := rfl
    have hstep_correct :
        (updateDailyStats p r.1 r.2 today).lifetimeStats.correctReviews =
          if r.1 then p.lifetimeStats.correctReviews + 1
          else p.lifetimeStats.correctReviews := rfl
    refine ⟨?_, ?_, ?_⟩
    · rw [List.foldl_cons, ih1, hstep_total, List.length_cons]
      push_cast
      ring
    · rw [List.foldl_cons, ih2, hstep_correct, List.countP_cons]
      cases hr : r.1 <;> (simp [hr]; try ring)
    · right
      rcases ih3 with hnil | hacc
      · subst hnil
        exact rfl
      · exact hacc

/-- C7: lifetime accuracy is recomputed on every recorded review as the
percentage of correct reviews; in particular three correct reviews and one
`again` review starting from fresh statistics give accuracy 75. -/
theorem lifetime_accuracy_recomputed :
    (recordReviews [(true, 3), (true, 4), (true, 5), (false, 6)]
        0).lifetimeStats.accuracy = 75 ∧
      ∀ (reviews : List (Bool × ℚ)) (today : Int),
        (recordReviews reviews today).lifetimeStats.accuracy =
          if reviews.length = 0 then 0
          else (reviews.countP (fun r => r.1) : ℚ) / (reviews.length : ℚ) * 100 := by
  constructor
  · norm_num [recordReviews, updateDailyStats, updateLifetime, updateDailyEntry,
      defaultProgress, List.foldl_cons, List.foldl_nil]
  · intro reviews today
    obtain ⟨h1, h2, h3⟩ := foldReviews_lifetime reviews defaultProgress today
    rcases h3 with hnil | hacc
    · subst hnil
      simp [recordReviews, defaultProgress]
    · have hd0 : defaultProgress.lifetimeStats.totalReviews = 0 := rfl
      have hd1 : defaultProgress.lifetimeStats.correctReviews = 0 := rfl
      rw [recordReviews, hacc, h1, h2, hd0, hd1]
      rcases Nat.eq_zero_or_pos reviews.length with hlen | hlen
      · simp [hlen]
      · have hlq : (0 : ℚ) < (reviews.length : ℚ) := by exact_mod_cast hlen
        have : reviews.length ≠ 0 := Nat.pos_iff_ne_zero.mp hlen
        simp [this, hlq.le, hlq]

mutual
/-- Auxiliary: reviving the serialization of a revived value gives the
revived value back, provided canonical ISO strings are fixed points of the
date canonicalization. -/
theorem reviveDates_roundtrip (p : String → Option String)
    (hp : ∀ s c, p s = some c → p c = some c) :
    ∀ j : Json, reviveDates p (jvalToJson (reviveDates p j)) = reviveDates p j
  | .null => rfl
  | .bool _ => rfl
  | .num _ => rfl
  | .str s => by
      cases hps : p s with
      | none => simp [reviveDates, jvalToJson, hps]
      | some c => simp [reviveDates, jvalToJson, hps, hp s c hps]
  | .arr xs => by
      simp [reviveDates, jvalToJson, reviveDatesArr_roundtrip p hp xs]
  | .obj fs => by
      simp [reviveDates, jvalToJson, reviveDatesObj_roundtrip p hp fs]
theorem reviveDatesArr_roundtrip (p : String → Option String)
    (hp : ∀ s c, p s = some c → p c = some c) :
    ∀ xs : JsonArr,
      reviveDatesArr p (jvalArrToJson (reviveDatesArr p xs)) =
        reviveDatesArr p xs
  | .nil => rfl
  | .cons x xs => by
      simp [reviveDatesArr, jvalArrToJson, reviveDates_roundtrip p hp x,
        reviveDatesArr_roundtrip p hp xs]
theorem reviveDatesObj_roundtrip (p : String → Option String)
    (hp : ∀ s c, p s = some c → p c = some c) :
    ∀ fs : JsonObj,
      reviveDatesObj p (jvalObjToJson (reviveDatesObj p fs)) =
        reviveDatesObj p fs
  | .nil => rfl
  | .cons k v fs => by
      simp [reviveDatesObj, jvalObjToJson, reviveDates_roundtrip p hp v,
        reviveDatesObj_roundtrip p hp fs]
end

/-- Auxiliary: the value `CardStorage.getAll` reads back is always truthy
(it is an array, or a value that passed the truthiness check). -/
theorem readCollection_truthy (p : String → Option String)
    (stored : Option Json) : (readCollection p stored).truthy = true := by
  cases stored with
  | none => rfl
  | some j =>
      by_cases h : (reviveDates p j).truthy
      · simp [readCollection, h]
      · simp only [readCollection, h]
        rfl

/-- Auxiliary: reviving the serialization of a read-back card collection
reproduces it exactly. -/
theorem reviveDates_readCollection (p : String → Option String)
    (hp : ∀ s c, p s = some c → p c = some c) (stored : Option Json) :
    reviveDates p (jvalToJson (readCollection p stored)) =
      readCollection p stored := by
  cases stored with
  | none => rfl
  | some j =>
      by_cases h : (reviveDates p j).truthy
      · simp only [readCollection, h, if_true]
        exact reviveDates_roundtrip p hp j
      · simp only [readCollection, h, if_false]
        rfl

/-- Auxiliary: saving the serialized read-back collection and reading it
again gives the same collection. -/
theorem readCollection_reserialized (p : String → Option String)
    (hp : ∀ s c, p s = some c → p c = some c) (stored : Option Json) :
    readCollection p (some (jvalToJson (readCollection p stored))) =
      readCollection p stored := by
  have h1 := reviveDates_readCollection p hp stored
  have h2 := readCollection_truthy p stored
  show (if (reviveDates p (jvalToJson (readCollection p stored))).truthy = true
      then reviveDates p (jvalToJson (readCollection p stored))
      else JVal.arr JValArr.nil) = readCollection p stored
  rw [h1, h2]
  simp

/-- C5: exporting the whole data set and re-importing the resulting JSON
document reproduces the identical card collection once it is read back from
storage; the collections agree as JSON values, hence byte-for-byte after
serialization.  `hp` states that canonical ISO date strings are fixed points
of date revival, and `hparse` that parsing the export document recovers it
(`JSON.parse` inverts `JSON.stringify`). -/
theorem export_import_roundtrip (p : String → Option String)
    (parseJson : String → Option Json) (st : StoreState)
    (input exportDate : String)
    (hp : ∀ s c, p s = some c → p c = some c)
    (hparse : parseJson input = some (exportData p st exportDate)) :
    jvalToJson (readCards p (importData parseJson input st).2) =
      jvalToJson (readCards p st) := by
  have hget : (exportData p st exportDate).getField ("cards") =
      some (jvalToJson (readCards p st)) := rfl
  unfold importData
  rw [hparse]
  simp only [hget, applyKey]
  by_cases ht : (jvalToJson (readCards p st)).truthy
  · simp only [ht, if_true]
    exact congrArg jvalToJson (readCollection_reserialized p hp st.cards)
  · simp only [ht, if_false]
    rfl

/-- Witness for C5 on a concrete one-card state, with an idealized date
canonicalizer that recognizes nothing and a parse function recovering the
export document. -/
theorem export_import_roundtrip_witness :
    jvalToJson (readCards (fun _ => none)
        (importData
          (fun _ => some (exportData (fun _ => none) sampleState ("d")))
          ("ignored") sampleState).2) =
      jvalToJson (readCards (fun _ => none) sampleState) :=
  export_import_roundtrip (fun _ => none) _ sampleState _ _
    (fun _ _ h => Option.noConfusion h) rfl

/-- C8: when the input string is not valid JSON, `importData` reports failure
and leaves every stored collection unchanged. -/
theorem importData_invalid_json_noop (parseJson : String → Option Json)
    (input : String) (st : StoreState) (h : parseJson input = none) :
    importData parseJson input st = (false, st) := by
  unfold importData
  rw [h]

/-- Witness for C8 at a concrete state and failing parse. -/
theorem importData_invalid_json_noop_witness :
    importData (fun _ => none) ("not json") sampleState =
      (false, sampleState) :=
  importData_invalid_json_noop _ _ _ rfl

end SpacedRep
